import Mathlib

/-!
Verification of the pinakes backfill/search codebase against its
natural-language specification.  The TypeScript sources are shallowly
embedded below: pure functions become Lean functions, stateful code becomes
explicit state passing, and the cooperative event loop is modelled as an
explicit interleaving of atomic segments (the segments between `await`
suspension points).  JavaScript numbers used as integers are modelled by
`Nat`/`Int`, seconds/milliseconds by `Rat`, and the transcendental math of
`logarithmicScale` by `Real`.
-/

namespace Pinakes

/-! ## Store (src/util/db.ts)

A `post` table row.  Embedding vectors are opaque to every operation
modelled here (the upsert either stores the incoming value or `NULL`;
`Float32Array` is truthy in JS even when empty, so `post.embedding ?
formatVector(...) : null` stores `NULL` exactly when the field is
null/undefined), so they are modelled as `Option (List Rat)`. -/
structure PostRow where
  creator : String
  rkey : String
  createdAt : Int
  text : String
  embedding : Option (List Rat) := none
  altText : Option String := none
  altTextEmbedding : Option (List Rat) := none
  replyParent : Option String := none
  replyRoot : Option String := none
  quoted : Option String := none
  embedTitle : Option String := none
  embedDescription : Option String := none
  embedUrl : Option String := none
  inclusionReason : String
  inclusionContext : Option String := none
deriving DecidableEq, Repr

/-- Rows keyed by the primary key `(creator, rkey)`. -/
def sameKey (p q : PostRow) : Bool :=
  p.creator == q.creator && p.rkey == q.rkey

/-- One row of `Database.insertPosts`: `INSERT ... ON CONFLICT DO UPDATE SET`
where every non-key column is assigned `excluded.<column>`, i.e. the whole
stored row is replaced by the incoming row (the incoming `embedding` is
`NULL` when the field is absent, and that `NULL` is assigned on conflict). -/
def upsertPost (table : List PostRow) (p : PostRow) : List PostRow :=
  if table.any (sameKey p) then
    table.map (fun q => if sameKey p q then p else q)
  else
    table ++ [p]

/-- `Database.insertPosts`: upsert each row of the batch in order. -/
def insertPosts (table : List PostRow) (posts : List PostRow) : List PostRow :=
  posts.foldl upsertPost table

/-- `Database.getPost`. -/
def getPost (table : List PostRow) (creator rkey : String) : Option PostRow :=
  table.find? (fun q => q.creator == creator && q.rkey == rkey)

/-- ASCII lower-casing of a string's characters, matching the ASCII-only
case folding SQLite applies to `LIKE`. -/
def lowerData (s : String) : List Char :=
  s.data.map Char.toLower

/-- Helper: does `pat` occur as a contiguous sublist of `s`? -/
def containsSub (pat : List Char) : List Char → Bool
  | [] => pat.isEmpty
  | c :: t => List.isPrefixOf pat (c :: t) || containsSub pat t

/-- SQLite `col LIKE '%pat%'` for a non-null column value: substring
matching, ASCII-case-insensitively. -/
def likeContains (pat s : String) : Bool :=
  containsSub (lowerData pat) (lowerData s)

/-- SQLite `col LIKE '%pat%'` on a nullable column: `NULL LIKE p` is `NULL`,
which the `WHERE` clause does not select. -/
def optLikeContains (pat : String) (col : Option String) : Bool :=
  match col with
  | none => false
  | some s => likeContains pat s

/-- SQLite `col LIKE 'pre%'` on a nullable column (prefix match, used for
the `replyParent`/`replyRoot` author filters). -/
def optLikeStartsWith (pre : String) (col : Option String) : Bool :=
  match col with
  | none => false
  | some s => List.isPrefixOf (lowerData pre) (lowerData s)

inductive SortOrder where
  | asc
  | desc
deriving DecidableEq, Repr

/-- Options of `searchPostsText`/`applySearchPostsOptions`.  The `before`
and `after` strings of the source are converted by `toDateOrNull` into epoch
milliseconds (invalid dates throw before any query runs); they are modelled
here as the already-parsed timestamps. -/
structure SearchPostsOptions where
  results : Nat
  creator : Option (List String) := none
  parentAuthor : Option (List String) := none
  rootAuthor : Option (List String) := none
  beforeTs : Option Int := none
  afterTs : Option Int := none
  includeAltText : Bool := false
  order : Option SortOrder := none

/-- The `WHERE` conjunction built by `Database.applySearchPostsOptions`.
`if (creator)` tests JS truthiness (an empty array is truthy and produces an
empty OR, modelled as false), while `parentAuthor?.length` /
`rootAuthor?.length` skip both `undefined` and `[]`.  `createdAt` bounds are
strict. -/
def applySearchPostsOptionsPred (o : SearchPostsOptions) (p : PostRow) : Bool :=
  (match o.creator with
    | none => true
    | some cs => cs.any (fun c => p.creator == c)) &&
  (match o.parentAuthor with
    | none => true
    | some ps =>
      if ps.isEmpty then true
      else ps.any (fun a => optLikeStartsWith ("at://" ++ a) p.replyParent)) &&
  (match o.rootAuthor with
    | none => true
    | some rs =>
      if rs.isEmpty then true
      else rs.any (fun a => optLikeStartsWith ("at://" ++ a) p.replyRoot)) &&
  (match o.beforeTs with
    | none => true
    | some b => decide (p.createdAt < b)) &&
  (match o.afterTs with
    | none => true
    | some a => decide (a < p.createdAt))

/-- The OR clause `searchPostsText` adds when `text || includeAltText`:
`text LIKE '%q%'` is pushed only when `text` is truthy (non-empty), and
`altText LIKE '%q%'` is pushed whenever `includeAltText` is set — with the
same interpolated `q`, which is the empty pattern `'%%'` when the query is
empty. -/
def searchTextMatchClause (text : String) (includeAltText : Bool) (p : PostRow) : Bool :=
  ((if text ≠ "" then [likeContains text p.text] else []) ++
    (if includeAltText then [optLikeContains text p.altText] else [])).any id

/-- Comparator of `ORDER BY createdAt asc|desc`. -/
def createdAtLe (order : SortOrder) (p q : PostRow) : Bool :=
  match order with
  | .asc => decide (p.createdAt ≤ q.createdAt)
  | .desc => decide (q.createdAt ≤ p.createdAt)

/-- Stable insertion into a sorted list, for modelling `ORDER BY`. -/
def insertSorted (le : PostRow → PostRow → Bool) (p : PostRow) :
    List PostRow → List PostRow
  | [] => [p]
  | q :: t => if le p q then p :: q :: t else q :: insertSorted le p t

/-- SQL `ORDER BY`, modelled by a stable insertion sort (the SQL engine
leaves tie order unspecified; a stable sort is one refinement of it). -/
def sortPosts (le : PostRow → PostRow → Bool) : List PostRow → List PostRow
  | [] => []
  | p :: t => insertSorted le p (sortPosts le t)

/-- `Database.searchPostsText`: apply the match clause (only when
`text || includeAltText`), the option filters, `ORDER BY createdAt` (default
descending) and `LIMIT results`. -/
def searchPostsText (table : List PostRow) (text : String) (o : SearchPostsOptions) :
    List PostRow :=
  let order := o.order.getD SortOrder.desc
  let matched :=
    if text ≠ "" || o.includeAltText then
      table.filter (searchTextMatchClause text o.includeAltText)
    else table
  let filtered := matched.filter (applySearchPostsOptionsPred o)
  (sortPosts (createdAtLe order) filtered).take o.results

/-! ## Repo persistence (src/util/db.ts) -/

/-- `Database.setRepoRev`: upsert on the `repo` table keyed by `did`. -/
def setRepoRev (repos : List (String × String)) (did rev : String) :
    List (String × String) :=
  if repos.any (fun r => r.1 == did) then
    repos.map (fun r => if r.1 == did then (did, rev) else r)
  else
    repos ++ [(did, rev)]

/-- `Database.getRepoRev`. -/
def getRepoRev (repos : List (String × String)) (did : String) : Option String :=
  (repos.find? (fun r => r.1 == did)).map (·.2)

/-! ## RPC manager (src/util/xrpc.ts) -/

/-- The observable shape of a JS error value as far as
`XRPCManager.shouldRetry` inspects it: whether its stringification contains
one of the transient-network markers (`tcp`/`network`/`dns`), whether it is
a `TypeError`, the parsed `rate-limit-reset` header if a `headers` member
carries one (`parseInt` failure gives `NaN`, which like `0` is falsy;
both are modelled by `none`/`some 0` falling through), and the HTTP
`status` member if it is a number. -/
structure JsError where
  msgHasNetworkMarker : Bool := false
  isTypeError : Bool := false
  rateLimitReset : Option Nat := none
  status : Option Nat := none
deriving DecidableEq, Repr

def retryableStatusCodes : List Nat := [408, 429, 500, 502, 503, 504]

def maxRetries : Nat := 5

/-- `XRPCManager.shouldRetry`, returning the decision together with the
number of milliseconds slept before returning it.  `now` is
`Date.now()` in epoch milliseconds.  The status branch sleeps
`Math.pow(2.9, attempt + 1) * 1000` milliseconds. -/
def shouldRetry (now : Rat) (e : JsError) (attempt : Nat) : Bool × Rat :=
  if e.msgHasNetworkMarker then (true, 0)
  else if e.isTypeError then (false, 0)
  else if e.rateLimitReset.getD 0 ≠ 0 then
    (true, (e.rateLimitReset.getD 0 : Rat) * 1000 - now)
  else if attempt ≥ maxRetries then (false, 0)
  else if (match e.status with
    | some s => retryableStatusCodes.contains s
    | none => false) then
    (true, ((29 : Rat) / 10) ^ (attempt + 1) * 1000)
  else (false, 0)

/-- One scripted outcome of running `fn(client)` inside `query`. -/
inductive QueryStep where
  | success
  | failure (e : JsError)
deriving DecidableEq, Repr

/-- Result of `XRPCManager.query` on a script of outcomes: the value of the
first successful attempt, or the first error `shouldRetry` declined,
together with how many attempts were made and the total milliseconds slept
inside `shouldRetry`. -/
inductive QueryResult where
  | ok (attempts : Nat) (sleptMs : Rat)
  | err (e : JsError) (attempts : Nat) (sleptMs : Rat)
  | scriptExhausted
deriving DecidableEq, Repr

/-- `XRPCManager.query`.  Each invocation declares `let attempt = 0`, runs
`fn` once inside `queue.add`, and on failure consults
`shouldRetry(error, attempt++)`; a positive decision re-enters
`this.query(service, fn)`, a fresh invocation whose local `attempt` starts
at `0` again.  The counter therefore never exceeds `0` at the moment
`shouldRetry` reads it. -/
def query (now : Rat) : List QueryStep → QueryResult
  | [] => .scriptExhausted
  | step :: rest =>
    let attempt : Nat := 0
    match step with
    | .success => .ok 1 0
    | .failure e =>
      let d := shouldRetry now e attempt
      if d.1 then
        match query now rest with
        | .ok n s => .ok (n + 1) (s + d.2)
        | .err e2 n s => .err e2 (n + 1) (s + d.2)
        | .scriptExhausted => .scriptExhausted
      else .err e 1 0

/-- Outcome of one `idResolver.resolve(did)` call, as far as
`getServiceForDid` distinguishes them: a thrown `ImproperContentTypeError`,
any other thrown error, or a resolved DID document whose `#atproto_pds`
service endpoint is the given optional string. -/
inductive ResolveOutcome where
  | throwsImproperContentType
  | throwsOther
  | found (endpoint : Option String)
deriving DecidableEq, Repr

/-- State of `XRPCManager` relevant to DID resolution: the
`didToServiceCache` entries and how many network resolutions have been
performed. -/
structure XrpcState where
  cache : List (String × Option String) := []
  resolveCalls : Nat := 0
deriving DecidableEq, Repr

def cacheGet (cache : List (String × Option String)) (did : String) :
    Option (Option String) :=
  (cache.find? (fun r => r.1 == did)).map (·.2)

def cacheSet (cache : List (String × Option String)) (did : String)
    (v : Option String) : List (String × Option String) :=
  if cache.any (fun r => r.1 == did) then
    cache.map (fun r => if r.1 == did then (did, v) else r)
  else
    cache ++ [(did, v)]

/-- The body of `getServiceForDid` after the cache test: resolve the DID
over the network, cache a `null` on `ImproperContentTypeError`, cache the
endpoint only when truthy, propagate other throws. -/
def getServiceForDidResolve (resolve : String → ResolveOutcome) (st : XrpcState)
    (did : String) : Except Unit (Option String) × XrpcState :=
  let st := { st with resolveCalls := st.resolveCalls + 1 }
  match resolve did with
  | .throwsImproperContentType =>
    (.ok none, { st with cache := cacheSet st.cache did none })
  | .throwsOther => (.error (), st)
  | .found none => (.ok none, st)
  | .found (some ep) =>
    if ep ≠ "" then
      (.ok (some ep), { st with cache := cacheSet st.cache did (some ep) })
    else (.ok (some ep), st)

/-- `XRPCManager.getServiceForDid`.  The cache lookup is
`const fromCache = this.didToServiceCache.get(did); if (fromCache) return
fromCache;` — a JS truthiness test, so a cached `null` (or empty string)
does not short-circuit and the resolver is consulted again. -/
def getServiceForDid (resolve : String → ResolveOutcome) (st : XrpcState)
    (did : String) : Except Unit (Option String) × XrpcState :=
  match cacheGet st.cache did with
  | some (some s) =>
    if s ≠ "" then (.ok (some s), st)
    else getServiceForDidResolve resolve st did
  | _ => getServiceForDidResolve resolve st did

/-! ## Background task queue (src/util/queue.ts)

`BackgroundQueue` is modelled as a state machine over the counters the
class maintains.  Task arguments are all alike for the properties at stake,
so `_queue` is tracked by its length.  `blocked` counts producers suspended
inside `add` on the `promisesWaitingForSpace` promise; `released` counts
producers whose stored `resolve` has been invoked by `_notifyWaiting` but
whose continuation (the `this._queue.push(args)` after the `await`) has not
run yet — in the JS event loop that continuation is a separate microtask.
Soft-timeout demotion (`setTimeout`) and the `AbortError` requeue path are
not exercised by the modelled configurations. -/
structure QueueCfg where
  hardConcurrency : Nat
  softConcurrency : Option Nat := none
  maxQueueSize : Option Nat := none
deriving DecidableEq, Repr

structure QueueState where
  queue : Nat := 0
  running : Nat := 0
  active : Nat := 0
  blocked : Nat := 0
  released : Nat := 0
deriving DecidableEq, Repr

/-- `BackgroundQueue._canStart`. -/
def canStart (cfg : QueueCfg) (s : QueueState) : Bool :=
  if s.queue = 0 then false
  else if s.running ≥ cfg.hardConcurrency then false
  else match cfg.softConcurrency with
    | some soft => decide (s.active < soft)
    | none => true

/-- `BackgroundQueue._notifyWaiting`: returns immediately when
`_maxQueueSize` is falsy; otherwise
`while (promisesWaitingForSpace.length && size < maxQueueSize) shift()?.()`.
Invoking a stored `resolve` does not run the producer's continuation
synchronously, so `size` is unchanged throughout the loop and, whenever one
slot is free, every waiting producer is released. -/
def notifyWaiting (cfg : QueueCfg) (s : QueueState) : QueueState :=
  match cfg.maxQueueSize with
  | none => s
  | some max =>
    if max = 0 then s
    else if s.queue < max then
      { s with blocked := 0, released := s.released + s.blocked }
    else s

/-- One iteration body of `_drain` once `_canStart` holds: shift an
argument tuple, notify waiting producers, start the task. -/
def drainStep (cfg : QueueCfg) (s : QueueState) : QueueState :=
  let s := { s with queue := s.queue - 1 }
  let s := notifyWaiting cfg s
  { s with
    running := s.running + 1,
    active := if cfg.softConcurrency.isSome then s.active + 1 else s.active }

def drainGo (cfg : QueueCfg) : Nat → QueueState → QueueState
  | 0, s => s
  | fuel + 1, s => if canStart cfg s then drainGo cfg fuel (drainStep cfg s) else s

/-- `BackgroundQueue._drain`: the while loop removes one queued tuple per
iteration and nothing inside it enqueues, so `s.queue` bounds the number of
iterations. -/
def drain (cfg : QueueCfg) (s : QueueState) : QueueState :=
  drainGo cfg s.queue s

/-- Atomic segments of the event loop touching one queue. -/
inductive QueueOp where
  /-- a producer calls `add(...)`: suspend when `maxQueueSize` is truthy and
  `size >= maxQueueSize`, else push + `_drain()` -/
  | add
  /-- the continuation of a released producer runs: push + `_drain()` -/
  | resume
  /-- a running task settles: the `finally` handler decrements `_running`
  (and `_active` for a fast soft-counted task), emits `completed`, then
  `_notifyWaiting()` and `_drain()` -/
  | complete
deriving DecidableEq, Repr

def queueStep (cfg : QueueCfg) (s : QueueState) : QueueOp → QueueState
  | .add =>
    match cfg.maxQueueSize with
    | some max =>
      if max ≠ 0 ∧ s.queue ≥ max then { s with blocked := s.blocked + 1 }
      else drain cfg { s with queue := s.queue + 1 }
    | none => drain cfg { s with queue := s.queue + 1 }
  | .resume =>
    if s.released = 0 then s
    else drain cfg { s with released := s.released - 1, queue := s.queue + 1 }
  | .complete =>
    if s.running = 0 then s
    else
      let s := { s with
        running := s.running - 1,
        active := if cfg.softConcurrency.isSome then s.active - 1 else s.active }
      drain cfg (notifyWaiting cfg s)

def runQueueOps (cfg : QueueCfg) (s : QueueState) (ops : List QueueOp) : QueueState :=
  ops.foldl (queueStep cfg) s

/-! ## Backfill engine (src/lib/backfill.ts variant cited by the spec) -/

def BSKY_APP_DID : String := "did:plc:z72i7hdynmk6r22z27h6tvur"

def postQueueHardConcurrency : Nat := 100

/-- `isTid` from `@atcute/lexicons/syntax`: a 13-character base32-sortable
timestamp identifier whose first character encodes a non-negative number,
`/^[234567abcdefghij][234567abcdefghijklmnopqrstuvwxyz]{12}$/`. -/
def isTid (s : String) : Bool :=
  s.length == 13 &&
  (match s.data with
    | [] => false
    | c :: rest =>
      ("234567abcdefghij".data).contains c &&
      rest.all (fun d => ("234567abcdefghijklmnopqrstuvwxyz".data).contains d))

/-- One `(collection, rkey)` entry yielded by the MST walk of a repo. -/
structure RepoEntry where
  collection : String
  rkey : String
deriving DecidableEq, Repr

/-- The keys of `Backfill.processors`. -/
def processorsCollections : List String :=
  ["app.bsky.feed.post", "app.bsky.feed.repost", "app.bsky.feed.like",
    "app.bsky.graph.follow"]

/-- Collections requested for the user's own repo by `Backfill.backfill`. -/
def ownRepoCollections : List String :=
  ["app.bsky.feed.post", "app.bsky.feed.repost", "app.bsky.feed.like",
    "app.bsky.graph.follow"]

/-- Default `collections` of `processRepo`, used for every repo reached via
a follow. -/
def defaultRepoCollections : List String :=
  ["app.bsky.feed.post", "app.bsky.feed.repost"]

/-- JS `<` on strings: lexicographic comparison of the code-unit
sequences, which over the ASCII TID alphabet is character-wise
lexicographic order. -/
def jsStrLt : List Char → List Char → Bool
  | [], [] => false
  | [], _ :: _ => true
  | _ :: _, [] => false
  | a :: as, b :: bs =>
    if a < b then true else if b < a then false else jsStrLt as bs

/-- The rev-skip condition of `Backfill.processRepo`:
`rev && isTid(rev) && rkey < rev && (!isOwnRepo || collection !==
"app.bsky.graph.follow")`. -/
def shouldSkipOld (isOwnRepo : Bool) (rev : Option String) (e : RepoEntry) : Bool :=
  match rev with
  | none => false
  | some r =>
    r ≠ "" && isTid r && jsStrLt e.rkey.data r.data &&
    (!isOwnRepo || e.collection ≠ "app.bsky.graph.follow")

/-- The record-selection loop of `Backfill.processRepo`: entries whose
collection is not requested or has no processor are skipped with
`continue`, old entries are skipped with `continue` under `shouldSkipOld`,
and every surviving entry is pushed onto `records` for processing. -/
def processRepoRecords (isOwnRepo : Bool) (rev : Option String)
    (collections : List String) : List RepoEntry → List RepoEntry
  | [] => []
  | e :: rest =>
    if ¬ collections.contains e.collection ∨
        ¬ processorsCollections.contains e.collection then
      processRepoRecords isOwnRepo rev collections rest
    else if shouldSkipOld isOwnRepo rev e then
      processRepoRecords isOwnRepo rev collections rest
    else
      e :: processRepoRecords isOwnRepo rev collections rest

/-! ### Dedup across concurrent `processPost` runs

All tasks below concern one fixed post URI, so `seenPosts` is tracked by the
single bit "does it contain `h32(uri)`".  A `processPost` run splits into at
most two atomic segments of the cooperative event loop: everything up to the
`await this.fetchPost(uri)` suspension point, and everything after it.  When
the caller supplied `options.record` there is no suspension between the
`seenPosts.has` check and the `seenPosts.add`, so the run is a single
segment. -/
structure DedupState where
  seen : Bool := false
  inserts : Nat := 0
  pendingFetches : Nat := 0
deriving DecidableEq, Repr

inductive DedupOp where
  /-- a task whose `options.record` was supplied starts: `has` check, `add`,
  and the buffering into `toWrite` all run in one segment -/
  | startWithRecord
  /-- a task without a record starts: after the `has` check it suspends in
  `fetchPost` -/
  | startFetch
  /-- a suspended fetch resolves with a record: `seenPosts.add(uriHash)`
  runs, the post is assembled and buffered -/
  | fetchReturns
deriving DecidableEq, Repr

def dedupStep (s : DedupState) : DedupOp → DedupState
  | .startWithRecord =>
    if s.seen then s else { s with seen := true, inserts := s.inserts + 1 }
  | .startFetch =>
    if s.seen then s else { s with pendingFetches := s.pendingFetches + 1 }
  | .fetchReturns =>
    if s.pendingFetches = 0 then s
    else { s with
      pendingFetches := s.pendingFetches - 1,
      seen := true,
      inserts := s.inserts + 1 }

def runDedup (ops : List DedupOp) : DedupState :=
  ops.foldl dedupStep {}

/-- The largest number of same-URI tasks simultaneously between the two
segments along a schedule (they all occupy a `postQueue` running slot). -/
def maxPendingFetches (ops : List DedupOp) : Nat :=
  (ops.foldl
    (fun acc op =>
      let s := dedupStep acc.1 op
      (s, max acc.2 s.pendingFetches))
    (({} : DedupState), 0)).2

/-! ### `Backfill.fetchPost` and the fetch path of `Backfill.processPost` -/

/-- A parsed AT URI, `at://<repo>/<collection>/<rkey>`. -/
structure AtUri where
  repo : String
  collection : String
  rkey : String
deriving DecidableEq, Repr

/-- What the appview returns for `getPostThread(uri)` inside `fetchPost`,
as far as the code distinguishes the cases.  `.notFound` covers both a
`notFoundPost` thread (re-thrown as a `NotFound` `ClientResponseError`) and
an HTTP `NotFound` error from the call itself — the `catch` re-throws both
identically.  `.blocked`, `.unexpectedType` and `.errOther` all fall
through to the direct `getRecord` fetch. -/
inductive ThreadRes where
  | viewOk
  | viewBadRecord
  | blocked
  | notFound
  | unexpectedType
  | errTimeout
  | errOther
deriving DecidableEq, Repr

/-- What `com.atproto.repo.getRecord` yields in the fallback branch. -/
inductive RecordRes where
  | okValid
  | okInvalid
  | errTimeout
  | errOther
deriving DecidableEq, Repr

inductive FetchErr where
  | timeout
  | notFound
  | other
deriving DecidableEq, Repr

/-- `Backfill.fetchPost`: `(record?, threadView?)` presence, or a thrown
error.  A non-post collection or the first-party `BSKY_APP_DID` creator
short-circuits to `{}` before any network call. -/
def fetchPost (uri : AtUri) (tr : ThreadRes) (rr : RecordRes) :
    Except FetchErr (Bool × Bool) :=
  if uri.collection ≠ "app.bsky.feed.post" then .ok (false, false)
  else if uri.repo = BSKY_APP_DID then .ok (false, false)
  else match tr with
  | .viewOk => .ok (true, true)
  | .viewBadRecord => .ok (false, false)
  | .notFound => .error .notFound
  | .errTimeout => .error .timeout
  | .blocked | .unexpectedType | .errOther =>
    match rr with
    | .okValid => .ok (true, false)
    | .okInvalid => .error .other
    | .errTimeout => .error .timeout
    | .errOther => .error .other

/-- The prefix of `Backfill.processPost` deciding whether `seenPosts` gains
the URI's hash, for a call whose `options.record` was not supplied.  Inputs
beyond the call arguments are the scripted `fetchPost` behaviour and
whether `toDateOrNull(record.createdAt)` yields a truthy timestamp.  The
32-bit `h32` hash is modelled injectively by the URI itself.  Returns the
new seen set, whether the post-insertion branch (buffering into `toWrite`)
completed, and an error re-thrown to the queue. -/
def processPostFetchCase (maxDepth depth : Nat) (seen : List AtUri) (uri : AtUri)
    (tr : ThreadRes) (rr : RecordRes) (createdAtValid : Bool) :
    List AtUri × Bool × Option FetchErr :=
  if depth > maxDepth then (seen, false, none)
  else if seen.contains uri then (seen, false, none)
  else match fetchPost uri tr rr with
  | .error .timeout => (seen, false, some .timeout)
  | .error .notFound => (seen, false, none)
  | .error .other => (seen, false, none)
  | .ok (false, _) => (seen, false, none)
  | .ok (true, _) =>
    let seen := uri :: seen
    if createdAtValid then (seen, true, none) else (seen, false, none)

/-! ### `Backfill.processPostReplies` -/

/-- One element of a `threadView.replies` array: either a value failing the
`threadViewPostSchema` check (skipped with `continue`) or a thread view
post carrying its URI and its own `replies`. -/
inductive ReplyNode where
  | invalid
  | node (uri : String) (replies : List ReplyNode)

/-- `Backfill.processPostReplies`: returns the `(uri, threadDepth)` pairs
prepended onto `postQueue` as `descendant_of` descendants.  The guard
`if (threadDepth > maxThreadDepth) return` runs before the loop, and each
recursive call passes `threadDepth + 1`. -/
def processPostReplies (maxThreadDepth threadDepth : Int)
    (replies : List ReplyNode) : List (String × Int) :=
  if threadDepth > maxThreadDepth then []
  else
    replies.flatMap fun r =>
      match r with
      | .invalid => []
      | .node uri children =>
        (uri, threadDepth) :: processPostReplies maxThreadDepth (threadDepth + 1) children
termination_by (maxThreadDepth + 1 - threadDepth).toNat
decreasing_by
  simp only [not_lt] at *
  omega

/-! ## `logarithmicScale` (src/util/util.ts)

The function computes with JS doubles; it is embedded over `ℝ`, the
idealised semantics, with `Math.log`/`Math.exp` as `Real.log`/`Real.exp`.
Every numeric fact proved about it below holds with margins that are many
orders of magnitude wider than double-precision rounding error. -/
noncomputable def logarithmicScale (f t : ℝ × ℝ) (input : ℝ) : ℝ :=
  if input ≤ f.1 then t.1
  else if f.2 ≤ input then t.2
  else if f.1 = f.2 ∨ t.1 = t.2 then t.1
  else
    Real.exp
      (Real.log t.1 +
        (Real.log input - Real.log f.1) / (Real.log f.2 - Real.log f.1) *
          (Real.log t.2 - Real.log t.1))

/-- The per-thread descendant-depth bound computed in `processPost`:
`Math.round(logarithmicScale([5, 200], [20, 3], threadView.post.replyCount
?? 0))`.  JS `Math.round` is `⌊x + 1/2⌋`, which is Mathlib's `round`. -/
noncomputable def maxThreadDepthFor (replyCount : ℕ) : ℤ :=
  round (logarithmicScale (5, 200) (20, 3) (replyCount : ℝ))

/-! ## Concrete instances used by the theorems below -/

/-- A stored post carrying a computed embedding. -/
def c1Stored : PostRow :=
  { creator := "did:plc:alice", rkey := "3laaaaaaaaa22", createdAt := 100,
    text := "hello", embedding := some [1], inclusionReason := "self" }

/-- A re-observation of the same `(creator, rkey)` whose embedding has not
been computed (the incoming `embedding` field is absent, stored as `NULL`). -/
def c1Incoming : PostRow :=
  { creator := "did:plc:alice", rkey := "3laaaaaaaaa22", createdAt := 100,
    text := "hello again", embedding := none, inclusionReason := "by_follow" }

/-- An RPC error with HTTP status 503 and nothing else notable. -/
def err503 : JsError := { status := some 503 }

/-- A resolver whose DID lookup always reports the malformed/absent DID
document outcome that the code turns into a cached `null`. -/
def c8Resolve : String → ResolveOutcome := fun _ => .throwsImproperContentType

/-- The queue configuration of the overshoot trace: strictest possible
limits. -/
def c6Cfg : QueueCfg := { hardConcurrency := 1, maxQueueSize := some 1 }

/-- Event-loop trace: one task starts and runs; a second `add` fills the
one-slot waiting queue; two more producers suspend; the running task
completes, freeing one slot, and `_notifyWaiting` releases both producers;
both resumed producers push. -/
def c6Trace : List QueueOp :=
  [.add, .add, .add, .add, .complete, .resume, .resume]

/-- Schedule: two same-URI tasks without records both pass the `seenPosts`
check before either fetch resolves; then both fetches resolve. -/
def c2Trace : List DedupOp :=
  [.startFetch, .startFetch, .fetchReturns, .fetchReturns]

/-- A rev that `isTid` accepts. -/
def c4Rev : String := "3lk4xyzabcdef"

/-- A follow record older than `c4Rev` (its rkey sorts before it). -/
def c4OldFollow : RepoEntry :=
  { collection := "app.bsky.graph.follow", rkey := "3lk4aaaaaaaaa" }

/-- A post record older than `c4Rev`. -/
def c4OldPost : RepoEntry :=
  { collection := "app.bsky.feed.post", rkey := "3lk4aaaaaaaaa" }

/-- A post record newer than `c4Rev`. -/
def c4NewPost : RepoEntry :=
  { collection := "app.bsky.feed.post", rkey := "3lk4zzzzzzzzz" }

/-- A post matching every scalar filter of `c7Opts` but carrying no alt
text. -/
def c7Post : PostRow :=
  { creator := "did:plc:bob", rkey := "3laaaaaaaaa22", createdAt := 500,
    text := "some text", altText := none, inclusionReason := "self" }

def c7Opts : SearchPostsOptions := { results := 10, includeAltText := true }

/-- The reference timestamp `T` of scenario S7, in epoch milliseconds. -/
def TEpoch : Int := 1700000000000

def dayMs : Int := 86400000

def c7PostA : PostRow :=
  { creator := "did:plc:carol", rkey := "3laaaaaaaaa22",
    createdAt := TEpoch - dayMs, text := "one", inclusionReason := "self" }

def c7PostB : PostRow :=
  { creator := "did:plc:carol", rkey := "3laaaaaaaaa23",
    createdAt := TEpoch, text := "two", inclusionReason := "self" }

def c7PostC : PostRow :=
  { creator := "did:plc:carol", rkey := "3laaaaaaaaa24",
    createdAt := TEpoch + dayMs, text := "three", inclusionReason := "self" }

/-- Scenario S7's options: empty query, `before = T`, `after = T - 2d`. -/
def c7S7Opts : SearchPostsOptions :=
  { results := 25, beforeTs := some TEpoch, afterTs := some (TEpoch - 2 * dayMs) }

/-- AT URIs exercising the `fetchPost` short circuits. -/
def uriFollow : AtUri :=
  { repo := "did:plc:dan", collection := "app.bsky.graph.follow", rkey := "3laaaaaaaaa22" }

def uriBskyApp : AtUri :=
  { repo := "did:plc:z72i7hdynmk6r22z27h6tvur", collection := "app.bsky.feed.post",
    rkey := "3laaaaaaaaa22" }

def uriOrdinary : AtUri :=
  { repo := "did:plc:erin", collection := "app.bsky.feed.post", rkey := "3laaaaaaaaa22" }

/-- A small reply tree: a three-level linear chain. -/
def c5Chain : List ReplyNode :=
  [.node "d1" [.node "d2" [.node "d3" []]]]

/-! ## Theorems -/

/-- C1.  The `insertPosts` upsert assigns `excluded.embedding`
unconditionally, so re-upserting the same `(creator, rkey)` with a null
incoming embedding erases the stored non-null embedding — the claimed
frame condition fails on the code (the spec's own §9 design note flags
this as a latent bug). -/
theorem insertPosts_incoming_null_overwrites_stored_embedding :
    (getPost (insertPosts [] [c1Stored]) ("did:plc:alice") ("3laaaaaaaaa22")).map
        PostRow.embedding = some (some [1]) ∧
    (getPost (insertPosts (insertPosts [] [c1Stored]) [c1Incoming]) ("did:plc:alice")
        ("3laaaaaaaaa22")).map PostRow.embedding = some none := by
  decide

/-- C2, counterexample.  Two `post_queue` tasks for the same URI, neither
carrying a record, both pass the `seenPosts.has` check before either fetch
resolves (the `add` happens only after the `await this.fetchPost(...)`
suspension point); both then complete the post-insertion branch.  The
schedule keeps two tasks in flight, within the `post_queue` hard
concurrency of 100, so it is realizable — refuting "at most once per
engine lifetime" and the 1,000-enqueue scenario's "exactly one inserted
row". -/
theorem processPost_concurrent_fetch_inserts_twice :
    (runDedup c2Trace).inserts = 2 ∧
    maxPendingFetches c2Trace = 2 ∧
    2 ≤ postQueueHardConcurrency := by
  decide

/-- C2, amended.  When every enqueue of the URI carries an inline record,
the `seenPosts.has` check, the `seenPosts.add`, and the buffering run in
one atomic segment of the cooperative scheduler, and the post-insertion
branch completes at most once over any schedule. -/
theorem processPost_inline_record_dedup_at_most_once (ops : List DedupOp)
    (h : ∀ op ∈ ops, op = DedupOp.startWithRecord) :
    (runDedup ops).inserts ≤ 1 := by
  have H : ∀ (l : List DedupOp) (s : DedupState),
      (∀ op ∈ l, op = DedupOp.startWithRecord) →
      s.inserts ≤ (if s.seen then 1 else 0) →
      (l.foldl dedupStep s).inserts ≤
        (if (l.foldl dedupStep s).seen then 1 else 0) := by
    intro l
    induction l with
    | nil => intro s _ hs; simpa using hs
    | cons op t ih =>
      intro s hops hs
      have hop : op = DedupOp.startWithRecord := hops op (by simp)
      subst hop
      refine ih _ (fun o ho => hops o (by simp [ho])) ?_
      by_cases hseen : s.seen
      · simpa [dedupStep, hseen] using hs
      · simp [dedupStep, hseen] at hs ⊢
        omega
  have hfin := H ops {} h (by simp)
  unfold runDedup
  by_cases hf : (ops.foldl dedupStep {}).seen <;> simp [hf] at hfin <;> omega

/-- C2, amended claim applied at a concrete schedule of three
inline-record tasks. -/
theorem processPost_inline_record_dedup_at_most_once_witness :
    (∀ op ∈ [DedupOp.startWithRecord, DedupOp.startWithRecord, DedupOp.startWithRecord],
      op = DedupOp.startWithRecord) ∧
    (runDedup [DedupOp.startWithRecord, DedupOp.startWithRecord,
      DedupOp.startWithRecord]).inserts ≤ 1 :=
  ⟨by decide, processPost_inline_record_dedup_at_most_once _ (by decide)⟩

/-- C3.  Six consecutive HTTP 503 failures followed by a success: `query`
performs all seven attempts and succeeds, sleeping 2,900 ms before each
retry (total 17,400 ms) — because the retry re-enters `this.query`, whose
local `attempt` restarts at 0, `shouldRetry` always sees attempt 0: the
budget `attempts < 5` never trips and the backoff never grows.  The
claimed behaviour (base-3 exponential backoff, at most 5 additional
attempts, then surface the error) is what the dead `maxRetries` check was
meant to produce, as the second conjunct shows at attempt 5. -/
theorem query_unbounded_retries_constant_backoff :
    query 0 (List.replicate 6 (QueryStep.failure err503) ++ [QueryStep.success]) =
      .ok 7 17400 ∧
    shouldRetry 0 err503 5 = (false, 0) ∧
    (shouldRetry 0 err503 0).2 = 2900 := by
  refine ⟨?_, ?_, ?_⟩
  · simp [query, shouldRetry, err503, retryableStatusCodes, maxRetries]
    norm_num
  · simp [shouldRetry, err503, maxRetries]
  · simp [shouldRetry, err503, retryableStatusCodes, maxRetries]
    norm_num

/-- C6.  Trace on a queue with `hardConcurrency = 1`, `maxQueueSize = 1`:
one task runs, one argument tuple waits, two producers suspend in `add`;
when the running task completes, `_drain` frees the single slot and
`_notifyWaiting`'s while loop — whose `this.size` cannot change before the
released continuations run — wakes *both* producers, and both push: the
waiting set reaches 2 > `maxQueueSize`, contradicting the claimed bound
(and the `maxQueueSize` doc comment in the source). -/
theorem queue_waiting_set_overshoots_max_queue_size :
    (runQueueOps c6Cfg {} c6Trace).queue = 2 ∧
    c6Cfg.maxQueueSize = some 1 ∧
    (queueStep c6Cfg { queue := 1, running := 1 } QueueOp.add).blocked = 1 := by
  decide

/-- C4, counterexample.  Own repo, stored rev a valid TID: an old follow
record (rkey before the rev) is *not* skipped — the exemption
`(!isOwnRepo || collection !== "app.bsky.graph.follow")` attaches to the
user's own repo, refuting "for the user's own repo the same skip applies
to all collections"; the old post is skipped and the newer post survives. -/
theorem processRepo_own_repo_old_follow_not_skipped :
    processRepoRecords true (some c4Rev) ownRepoCollections
        [c4OldPost, c4OldFollow, c4NewPost] = [c4OldFollow, c4NewPost] ∧
    isTid c4Rev = true ∧
    jsStrLt c4OldFollow.rkey.data c4Rev.data = true := by
  decide

/-- C4, amended.  With a stored rev that is a valid TID: in the user's own
repo, records with `rkey < rev` are skipped *except* follows, which are
always replayed; in non-own repos the skip applies to every collection
(and follows are not processed there at all, as the default `collections`
set holds only posts and reposts); skipping is a per-record `continue`, so
the walk is exactly a filter and later records are unaffected. -/
theorem processRepo_rev_skip_characterization :
    (∀ (own : Bool) (rev : Option String) (cols : List String)
        (entries : List RepoEntry),
        processRepoRecords own rev cols entries =
          entries.filter (fun e =>
            cols.contains e.collection &&
            processorsCollections.contains e.collection &&
            !shouldSkipOld own rev e)) ∧
    (∀ (rev : Option String) (e : RepoEntry),
        e.collection = "app.bsky.graph.follow" → shouldSkipOld true rev e = false) ∧
    (∀ (r : String) (e : RepoEntry), isTid r = true →
        e.collection ≠ "app.bsky.graph.follow" → jsStrLt e.rkey.data r.data = true →
        shouldSkipOld true (some r) e = true) ∧
    (∀ (r : String) (e : RepoEntry), isTid r = true →
        jsStrLt e.rkey.data r.data = true → shouldSkipOld false (some r) e = true) ∧
    ¬ defaultRepoCollections.contains ("app.bsky.graph.follow") = true := by
  refine ⟨?_, ?_, ?_, ?_, by decide⟩
  · intro own rev cols entries
    induction entries with
    | nil => simp [processRepoRecords]
    | cons e t ih =>
      by_cases h1 : e.collection ∈ cols
      · by_cases h2 : e.collection ∈ processorsCollections
        · by_cases h3 : shouldSkipOld own rev e
          · simp [processRepoRecords, h1, h2, h3, ih, List.filter_cons]
          · simp [processRepoRecords, h1, h2, h3, ih, List.filter_cons]
        · simp [processRepoRecords, h1, h2, ih, List.filter_cons]
      · simp [processRepoRecords, h1, ih, List.filter_cons]
  · intro rev e hcol
    cases rev with
    | none => simp [shouldSkipOld]
    | some r => simp [shouldSkipOld, hcol]
  · intro r e htid hcol hlt
    have hne : r ≠ "" := by
      intro hr
      subst hr
      simp [isTid] at htid
    simp [shouldSkipOld, hne, htid, hlt, hcol]
  · intro r e htid hlt
    have hne : r ≠ "" := by
      intro hr
      subst hr
      simp [isTid] at htid
    simp [shouldSkipOld, hne, htid, hlt]

/-- C4, amended claim applied at concrete inputs: the own-repo walk equals
the filter; the old follow is exempt in the own repo; the old post is
skipped there; in a non-own repo the same old follow would be skipped. -/
theorem processRepo_rev_skip_characterization_witness :
    (processRepoRecords true (some c4Rev) ownRepoCollections [c4OldPost, c4OldFollow] =
      List.filter
        (fun e =>
          ownRepoCollections.contains e.collection &&
          processorsCollections.contains e.collection &&
          !shouldSkipOld true (some c4Rev) e)
        [c4OldPost, c4OldFollow]) ∧
    shouldSkipOld true (some c4Rev) c4OldFollow = false ∧
    shouldSkipOld true (some c4Rev) c4OldPost = true ∧
    shouldSkipOld false (some c4Rev) c4OldFollow = true :=
  ⟨processRepo_rev_skip_characterization.1 true (some c4Rev) ownRepoCollections
      [c4OldPost, c4OldFollow],
    processRepo_rev_skip_characterization.2.1 (some c4Rev) c4OldFollow (by decide),
    processRepo_rev_skip_characterization.2.2.1 c4Rev c4OldPost (by decide) (by decide)
      (by decide),
    processRepo_rev_skip_characterization.2.2.2.1 c4Rev c4OldFollow (by decide)
      (by decide)⟩

/-- C10.  On the fetch path of `processPost` (no inline record), the seen
set gains the URI only after `fetchPost` yields a record: a non-post
collection, the first-party `BSKY_APP_DID` creator, a thrown fetch error,
and the appview's NotFound all leave `seenPosts` unchanged, and any growth
of the seen set implies the fetch returned a record. -/
theorem processPost_seen_only_after_record_obtained :
    ∀ (maxDepth depth : ℕ) (seen : List AtUri) (uri : AtUri) (tr : ThreadRes)
      (rr : RecordRes) (cav : Bool),
      (uri.collection ≠ "app.bsky.feed.post" →
        (processPostFetchCase maxDepth depth seen uri tr rr cav).1 = seen) ∧
      (uri.repo = BSKY_APP_DID →
        (processPostFetchCase maxDepth depth seen uri tr rr cav).1 = seen) ∧
      (∀ e, fetchPost uri tr rr = .error e →
        (processPostFetchCase maxDepth depth seen uri tr rr cav).1 = seen) ∧
      ((processPostFetchCase maxDepth depth seen uri tr rr cav).1 ≠ seen →
        ∃ tv, fetchPost uri tr rr = .ok (true, tv)) := by
  intro mD d seen uri tr rr cav
  by_cases hd : d > mD
  · simp [processPostFetchCase, hd]
  · by_cases hs : uri ∈ seen
    · simp [processPostFetchCase, hd, hs]
    · refine ⟨?_, ?_, ?_, ?_⟩
      · intro hcol
        have hf : fetchPost uri tr rr = .ok (false, false) := by
          simp [fetchPost, hcol]
        simp [processPostFetchCase, hd, hs, hf]
      · intro hrepo
        by_cases hcol : uri.collection = "app.bsky.feed.post"
        · have hf : fetchPost uri tr rr = .ok (false, false) := by
            simp [fetchPost, hcol, hrepo]
          simp [processPostFetchCase, hd, hs, hf]
        · have hf : fetchPost uri tr rr = .ok (false, false) := by
            simp [fetchPost, hcol]
          simp [processPostFetchCase, hd, hs, hf]
      · intro e hf
        cases e <;> simp [processPostFetchCase, hd, hs, hf]
      · intro hne
        rcases hf : fetchPost uri tr rr with e | p
        · cases e <;> simp [processPostFetchCase, hd, hs, hf] at hne
        · rcases p with ⟨rec, tv⟩
          cases rec
          · simp [processPostFetchCase, hd, hs, hf] at hne
          · exact ⟨tv, rfl⟩

/-- C10 applied at concrete inputs: a follow-collection URI, a
`BSKY_APP_DID` post URI, a NotFound response, and a double fetch failure
each leave an empty seen set empty. -/
theorem processPost_seen_only_after_record_obtained_witness :
    (processPostFetchCase 5 0 [] uriFollow ThreadRes.viewOk RecordRes.okValid true).1 = [] ∧
    (processPostFetchCase 5 0 [] uriBskyApp ThreadRes.viewOk RecordRes.okValid true).1 = [] ∧
    (processPostFetchCase 5 0 [] uriOrdinary ThreadRes.notFound RecordRes.okValid true).1 = [] ∧
    (processPostFetchCase 5 0 [] uriOrdinary ThreadRes.errOther RecordRes.errOther true).1 = [] :=
  ⟨(processPost_seen_only_after_record_obtained 5 0 [] uriFollow ThreadRes.viewOk
      RecordRes.okValid true).1 (by decide),
    (processPost_seen_only_after_record_obtained 5 0 [] uriBskyApp ThreadRes.viewOk
      RecordRes.okValid true).2.1 (by decide),
    (processPost_seen_only_after_record_obtained 5 0 [] uriOrdinary ThreadRes.notFound
      RecordRes.okValid true).2.2.1 FetchErr.notFound (by rfl),
    (processPost_seen_only_after_record_obtained 5 0 [] uriOrdinary ThreadRes.errOther
      RecordRes.errOther true).2.2.1 FetchErr.other (by rfl)⟩

theorem mem_insertSorted {le : PostRow → PostRow → Bool} {p q : PostRow}
    {l : List PostRow} : q ∈ insertSorted le p l ↔ q = p ∨ q ∈ l := by
  induction l with
  | nil => simp [insertSorted]
  | cons a t ih =>
    by_cases h : le p a
    · simp [insertSorted, h]
    · simp [insertSorted, h, ih]
      tauto

theorem length_insertSorted (le : PostRow → PostRow → Bool) (p : PostRow)
    (l : List PostRow) : (insertSorted le p l).length = l.length + 1 := by
  induction l with
  | nil => simp [insertSorted]
  | cons a t ih =>
    by_cases h : le p a
    · simp [insertSorted, h]
    · simp [insertSorted, h, ih]

theorem mem_sortPosts {le : PostRow → PostRow → Bool} {q : PostRow}
    {l : List PostRow} : q ∈ sortPosts le l ↔ q ∈ l := by
  induction l with
  | nil => simp [sortPosts]
  | cons a t ih => simp [sortPosts, mem_insertSorted, ih]

theorem length_sortPosts (le : PostRow → PostRow → Bool) (l : List PostRow) :
    (sortPosts le l).length = l.length := by
  induction l with
  | nil => simp [sortPosts]
  | cons a t ih => simp [sortPosts, length_insertSorted, ih]

theorem containsSub_nil (l : List Char) : containsSub [] l = true := by
  cases l <;> simp [containsSub, List.isPrefixOf]

/-- The empty `LIKE` pattern `'%%'` matches every non-null string. -/
theorem likeContains_empty (s : String) : likeContains ("") s = true :=
  containsSub_nil (lowerData s)

/-- With an empty query and `includeAltText`, the interpolated clause is
`altText LIKE '%%'`, which holds exactly for non-null `altText`. -/
theorem searchTextMatchClause_empty_alt (r : PostRow) :
    searchTextMatchClause ("") true r = r.altText.isSome := by
  cases h : r.altText <;>
    simp [searchTextMatchClause, optLikeContains, likeContains_empty, h]

theorem searchTextMatchClause_nonempty (text : String) (h : text ≠ "")
    (alt : Bool) (r : PostRow) :
    searchTextMatchClause text alt r =
      (likeContains text r.text || (alt && optLikeContains text r.altText)) := by
  cases alt <;> simp [searchTextMatchClause, h]

/-- C7, counterexample.  Empty query with `include_alt_text` set: the
source still enters the match-clause branch (`if (text || includeAltText)`)
and pushes `altText LIKE '%%'`, so a post whose `altText` is `NULL` is
excluded even though it satisfies every scalar filter — refuting "with an
empty query the filters alone define the result set". -/
theorem searchPostsText_empty_query_include_alt_excludes_null_alt :
    searchPostsText [c7Post] ("") c7Opts = [] ∧
    applySearchPostsOptionsPred c7Opts c7Post = true := by
  decide

/-- C7, amended.  When the limit does not truncate, `searchPostsText`
returns exactly the rows passing the scalar filters that additionally
match `text LIKE '%q%'` or (with `include_alt_text`) `alt_text LIKE '%q%'`
for a non-empty query; with an empty query and `include_alt_text` unset the
filters alone define the set, while with `include_alt_text` set the rows
must additionally have non-null `alt_text`.  The `created_at` bounds are
strict, as the S7 instance shows: of the posts at `T-1d`, `T`, `T+1d`,
searching with `before = T`, `after = T-2d` returns exactly the `T-1d`
post. -/
theorem searchPostsText_characterization :
    (∀ (table : List PostRow) (text : String) (o : SearchPostsOptions) (r : PostRow),
        table.length ≤ o.results →
        (r ∈ searchPostsText table text o ↔
          r ∈ table ∧ applySearchPostsOptionsPred o r = true ∧
          (text ≠ "" →
            (likeContains text r.text ||
              (o.includeAltText && optLikeContains text r.altText)) = true) ∧
          (text = "" → o.includeAltText = true → r.altText.isSome = true))) ∧
    searchPostsText [c7PostA, c7PostB, c7PostC] ("") c7S7Opts = [c7PostA] := by
  constructor
  · intro table text o r hlen
    unfold searchPostsText
    have hmemtake : ∀ (l : List PostRow) (ord : SortOrder), l.length ≤ o.results →
        (r ∈ (sortPosts (createdAtLe ord) l).take o.results ↔ r ∈ l) := by
      intro l ord hl
      rw [List.take_of_length_le (by rw [length_sortPosts]; exact hl)]
      exact mem_sortPosts
    by_cases ht : text = ""
    · by_cases ha : o.includeAltText = true
      · simp only [ht, ha]
        rw [if_pos (by simp)]
        rw [hmemtake _ _
          (le_trans (le_trans (List.length_filter_le _ _) (List.length_filter_le _ _)) hlen)]
        simp [List.mem_filter, searchTextMatchClause_empty_alt]
      · simp only [ht, ha]
        rw [if_neg (by simp [ha])]
        rw [hmemtake _ _ (le_trans (List.length_filter_le _ _) hlen)]
        simp [List.mem_filter, ha]
    · rw [if_pos (by simp [ht])]
      rw [hmemtake _ _
        (le_trans (le_trans (List.length_filter_le _ _) (List.length_filter_le _ _)) hlen)]
      simp [List.mem_filter, searchTextMatchClause_nonempty text ht, ht]
  · decide

/-- C7, amended claim applied at the S7 instance: the `T-1d` post is
selected, the boundary post at `T` is not. -/
theorem searchPostsText_characterization_witness :
    ([c7PostA, c7PostB, c7PostC].length ≤ c7S7Opts.results) ∧
    c7PostA ∈ searchPostsText [c7PostA, c7PostB, c7PostC] ("") c7S7Opts ∧
    c7PostB ∉ searchPostsText [c7PostA, c7PostB, c7PostC] ("") c7S7Opts := by
  refine ⟨by decide, ?_, ?_⟩
  · exact (searchPostsText_characterization.1 _ _ _ c7PostA (by decide)).mpr (by decide)
  · intro hmem
    exact absurd ((searchPostsText_characterization.1 _ _ _ c7PostB (by decide)).mp hmem)
      (by decide)

theorem log_five_gt : 44 / 19 * Real.log 2 < Real.log 5 := by
  have h : ((2 : ℝ) ^ (44 : ℕ)) < 5 ^ (19 : ℕ) := by norm_num
  have h2 := Real.log_lt_log (by positivity) h
  rw [Real.log_pow, Real.log_pow] at h2
  push_cast at h2
  linarith

theorem log_five_lt : Real.log 5 < 79 / 34 * Real.log 2 := by
  have h : ((5 : ℝ) ^ (34 : ℕ)) < 2 ^ (79 : ℕ) := by norm_num
  have h2 := Real.log_lt_log (by positivity) h
  rw [Real.log_pow, Real.log_pow] at h2
  push_cast at h2
  linarith

theorem log_three_gt : 19 / 12 * Real.log 2 < Real.log 3 := by
  have h : ((2 : ℝ) ^ (19 : ℕ)) < 3 ^ (12 : ℕ) := by norm_num
  have h2 := Real.log_lt_log (by positivity) h
  rw [Real.log_pow, Real.log_pow] at h2
  push_cast at h2
  linarith

theorem log_three_lt : Real.log 3 < 27 / 17 * Real.log 2 := by
  have h : ((3 : ℝ) ^ (17 : ℕ)) < 2 ^ (27 : ℕ) := by norm_num
  have h2 := Real.log_lt_log (by positivity) h
  rw [Real.log_pow, Real.log_pow] at h2
  push_cast at h2
  linarith

theorem log_eleven_halves_lt : Real.log (11 / 2) < 123 / 50 * Real.log 2 := by
  have h : (((11 : ℝ) / 2) ^ (50 : ℕ)) < 2 ^ (123 : ℕ) := by norm_num
  have h2 := Real.log_lt_log (by positivity) h
  rw [Real.log_pow, Real.log_pow] at h2
  push_cast at h2
  linarith

theorem log_thirteen_halves_gt : 27 / 10 * Real.log 2 < Real.log (13 / 2) := by
  have h : ((2 : ℝ) ^ (27 : ℕ)) < ((13 : ℝ) / 2) ^ (10 : ℕ) := by norm_num
  have h2 := Real.log_lt_log (by positivity) h
  rw [Real.log_pow, Real.log_pow] at h2
  push_cast at h2
  linarith

theorem log_fifty_eq : Real.log 50 = Real.log 2 + 2 * Real.log 5 := by
  rw [show (50 : ℝ) = 2 * 5 ^ 2 by norm_num,
    Real.log_mul (by norm_num) (by norm_num), Real.log_pow]
  push_cast
  ring

theorem log_two_hundred_eq : Real.log 200 = 3 * Real.log 2 + 2 * Real.log 5 := by
  rw [show (200 : ℝ) = 2 ^ 3 * 5 ^ 2 by norm_num,
    Real.log_mul (by norm_num) (by norm_num), Real.log_pow, Real.log_pow]
  push_cast
  ring

theorem log_twenty_eq : Real.log 20 = 2 * Real.log 2 + Real.log 5 := by
  rw [show (20 : ℝ) = 2 ^ 2 * 5 by norm_num,
    Real.log_mul (by norm_num) (by norm_num), Real.log_pow]
  push_cast
  ring

/-- The value the engine computes for a thread of 50 replies:
`round(logarithmicScale([5, 200], [20, 3], 50))` is 6 (the log-log
interpolation at 50 lies strictly between 5.5 and 6.5). -/
theorem maxThreadDepthFor_50 : maxThreadDepthFor 50 = 6 := by
  have ha1 := Real.log_two_gt_d9
  have ha2 := Real.log_two_lt_d9
  have hb1 : (1.605 : ℝ) < Real.log 5 := by linarith [log_five_gt]
  have hb2 : Real.log 5 < 1.611 := by linarith [log_five_lt]
  have hc1 : (1.0974 : ℝ) < Real.log 3 := by linarith [log_three_gt]
  have hc2 : Real.log 3 < 1.1009 := by linarith [log_three_lt]
  have hval : logarithmicScale (5, 200) (20, 3) (50 : ℝ) =
      Real.exp (Real.log 20 +
        (Real.log 50 - Real.log 5) / (Real.log 200 - Real.log 5) *
          (Real.log 3 - Real.log 20)) := by
    rw [logarithmicScale]
    norm_num
  have hden0 : (0 : ℝ) < Real.log 200 - Real.log 5 := by
    rw [log_two_hundred_eq]
    linarith
  have hN1 : (2.29814 : ℝ) < Real.log 50 - Real.log 5 := by
    rw [log_fifty_eq]
    linarith
  have hN2 : Real.log 50 - Real.log 5 < 2.30415 := by
    rw [log_fifty_eq]
    linarith
  have hD1 : (3.68442 : ℝ) < Real.log 200 - Real.log 5 := by
    rw [log_two_hundred_eq]
    linarith
  have hD2 : Real.log 200 - Real.log 5 < 3.69045 := by
    rw [log_two_hundred_eq]
    linarith
  have hT0 : (0.622 : ℝ) <
      (Real.log 50 - Real.log 5) / (Real.log 200 - Real.log 5) := by
    rw [lt_div_iff₀ hden0]
    nlinarith
  have hT1 : (Real.log 50 - Real.log 5) / (Real.log 200 - Real.log 5) < 0.626 := by
    rw [div_lt_iff₀ hden0]
    nlinarith
  have hM1 : (1.89 : ℝ) < Real.log 20 - Real.log 3 := by
    rw [log_twenty_eq]
    linarith
  have hM2 : Real.log 20 - Real.log 3 < 1.9 := by
    rw [log_twenty_eq]
    linarith
  have hMul1 : (0.622 : ℝ) * 1.89 <
      (Real.log 50 - Real.log 5) / (Real.log 200 - Real.log 5) *
        (Real.log 20 - Real.log 3) :=
    mul_lt_mul'' hT0 hM1 (by norm_num) (by norm_num)
  have hMul2 : (Real.log 50 - Real.log 5) / (Real.log 200 - Real.log 5) *
      (Real.log 20 - Real.log 3) < 0.626 * 1.9 :=
    mul_lt_mul'' hT1 hM2 (by linarith) (by linarith)
  have hL1 : Real.log (11 / 2) < Real.log 20 +
      (Real.log 50 - Real.log 5) / (Real.log 200 - Real.log 5) *
        (Real.log 3 - Real.log 20) := by
    have h55 : Real.log (11 / 2) < 1.70515 := by linarith [log_eleven_halves_lt]
    nlinarith [log_twenty_eq]
  have hL2 : Real.log 20 +
      (Real.log 50 - Real.log 5) / (Real.log 200 - Real.log 5) *
        (Real.log 3 - Real.log 20) < Real.log (13 / 2) := by
    have h65 : (1.87149 : ℝ) < Real.log (13 / 2) := by
      linarith [log_thirteen_halves_gt]
    nlinarith [log_twenty_eq]
  have hV1 : (11 / 2 : ℝ) < logarithmicScale (5, 200) (20, 3) (50 : ℝ) := by
    rw [hval, show (11 / 2 : ℝ) = Real.exp (Real.log (11 / 2)) from
      (Real.exp_log (by norm_num)).symm]
    exact Real.exp_lt_exp.mpr hL1
  have hV2 : logarithmicScale (5, 200) (20, 3) (50 : ℝ) < 13 / 2 := by
    rw [hval, show (13 / 2 : ℝ) = Real.exp (Real.log (13 / 2)) from
      (Real.exp_log (by norm_num)).symm]
    exact Real.exp_lt_exp.mpr hL2
  rw [maxThreadDepthFor, show (((50 : ℕ) : ℝ)) = (50 : ℝ) by norm_num, round_eq,
    Int.floor_eq_iff]
  constructor
  · push_cast
    linarith
  · push_cast
    linarith

/-- Every descendant enqueued by `processPostReplies` sits at a thread
depth of at most `maxThreadDepth` (fuel-indexed helper). -/
theorem processPostReplies_depth_le (maxD : ℤ) :
    ∀ (fuel : ℕ) (d : ℤ) (rs : List ReplyNode),
      (maxD + 1 - d).toNat ≤ fuel →
      ∀ p ∈ processPostReplies maxD d rs, p.2 ≤ maxD := by
  intro fuel
  induction fuel with
  | zero =>
    intro d rs hf p hp
    rw [processPostReplies] at hp
    rw [if_pos (by omega)] at hp
    simp at hp
  | succ n ih =>
    intro d rs hf p hp
    rw [processPostReplies] at hp
    by_cases hd : d > maxD
    · rw [if_pos hd] at hp
      simp at hp
    · rw [if_neg hd] at hp
      simp only [List.mem_flatMap] at hp
      obtain ⟨r, _, hpr⟩ := hp
      match r with
      | .invalid => simp at hpr
      | .node u children =>
        simp only [List.mem_cons] at hpr
        rcases hpr with hpeq | hmem
        · subst hpeq
          omega
        · exact ih (d + 1) children (by omega) p hmem

/-- C5, counterexample.  The engine's bound for a thread with
`reply_count = 50` is `round(logarithmicScale([5,200],[20,3],50)) = 6`, not
9 — the claimed value comes from interpolating the *output* linearly
instead of on the log-log line. -/
theorem maxThreadDepthFor_50_ne_9 :
    maxThreadDepthFor 50 = 6 ∧ maxThreadDepthFor 50 ≠ 9 := by
  refine ⟨maxThreadDepthFor_50, ?_⟩
  rw [maxThreadDepthFor_50]
  decide

/-- C5, amended.  The descendant walk inside a thread view is bounded by
the rounded log-log interpolation of `reply_count` between 5 ⇒ 20 and
200 ⇒ 3; for `reply_count = 50` that bound is `round(logScale) = 6`, and
every descendant enqueued from such a thread sits at thread-depth at most
6. -/
theorem processPostReplies_bounded_by_logScale :
    maxThreadDepthFor 50 = 6 ∧
    (∀ (maxD d : ℤ) (rs : List ReplyNode) (p : String × ℤ),
      p ∈ processPostReplies maxD d rs → p.2 ≤ maxD) ∧
    (∀ (rs : List ReplyNode) (p : String × ℤ),
      p ∈ processPostReplies (maxThreadDepthFor 50) 1 rs → p.2 ≤ 6) := by
  have hdepth : ∀ (maxD d : ℤ) (rs : List ReplyNode) (p : String × ℤ),
      p ∈ processPostReplies maxD d rs → p.2 ≤ maxD := fun maxD d rs p hp =>
    processPostReplies_depth_le maxD ((maxD + 1 - d).toNat) d rs le_rfl p hp
  refine ⟨maxThreadDepthFor_50, hdepth, ?_⟩
  intro rs p hp
  have := hdepth (maxThreadDepthFor 50) 1 rs p hp
  rw [maxThreadDepthFor_50] at this
  exact this

/-- C5, amended claim applied to a concrete three-level reply chain under
the computed bound 6: the top reply is enqueued at thread-depth 1 ≤ 6. -/
theorem processPostReplies_bounded_by_logScale_witness :
    (("d1", (1 : ℤ)) ∈ processPostReplies 6 1 c5Chain) ∧ ((1 : ℤ) ≤ 6) := by
  have hmem : (("d1", (1 : ℤ))) ∈ processPostReplies 6 1 c5Chain := by
    rw [processPostReplies]
    simp [c5Chain]
  refine ⟨hmem, ?_⟩
  have hmem6 : (("d1", (1 : ℤ))) ∈ processPostReplies (maxThreadDepthFor 50) 1 c5Chain := by
    rw [processPostReplies_bounded_by_logScale.1]
    exact hmem
  exact processPostReplies_bounded_by_logScale.2.2 c5Chain ("d1", (1 : ℤ)) hmem6

/-- C9.  `logarithmicScale` clamps at its anchors — any input at or below
`from[0]` yields exactly `to[0]`, any input at or beyond `from[1]` (with
ordered anchors) yields exactly `to[1]` — and at the engine's anchors
`[5,200] ⇒ [20,3]` an input strictly between the anchors lands strictly
between 3 and 20; consequently the engine's rounded descendant-depth bound
lies in `[3, 20]` for every `reply_count`. -/
theorem logarithmicScale_clamps_and_bound_in_range :
    (∀ (f t : ℝ × ℝ) (x : ℝ), x ≤ f.1 → logarithmicScale f t x = t.1) ∧
    (∀ (f t : ℝ × ℝ) (x : ℝ), f.1 < f.2 → f.2 ≤ x → logarithmicScale f t x = t.2) ∧
    (∀ x : ℝ, 5 < x → x < 200 →
      3 < logarithmicScale (5, 200) (20, 3) x ∧
      logarithmicScale (5, 200) (20, 3) x < 20) ∧
    (∀ n : ℕ, 3 ≤ maxThreadDepthFor n ∧ maxThreadDepthFor n ≤ 20) := by
  have part1 : ∀ (f t : ℝ × ℝ) (x : ℝ), x ≤ f.1 → logarithmicScale f t x = t.1 := by
    intro f t x h
    rw [logarithmicScale, if_pos h]
  have part2 : ∀ (f t : ℝ × ℝ) (x : ℝ), f.1 < f.2 → f.2 ≤ x →
      logarithmicScale f t x = t.2 := by
    intro f t x hf h
    rw [logarithmicScale, if_neg (by linarith), if_pos h]
  have part3 : ∀ x : ℝ, 5 < x → x < 200 →
      3 < logarithmicScale (5, 200) (20, 3) x ∧
      logarithmicScale (5, 200) (20, 3) x < 20 := by
    intro x hx1 hx2
    have hval : logarithmicScale (5, 200) (20, 3) x =
        Real.exp (Real.log 20 +
          (Real.log x - Real.log 5) / (Real.log 200 - Real.log 5) *
            (Real.log 3 - Real.log 20)) := by
      rw [logarithmicScale]
      rw [if_neg (by simp only; linarith), if_neg (by simp only; linarith),
        if_neg (by norm_num)]
    have hnum0 : 0 < Real.log x - Real.log 5 :=
      sub_pos.mpr (Real.log_lt_log (by norm_num) hx1)
    have hden0 : 0 < Real.log 200 - Real.log 5 :=
      sub_pos.mpr (Real.log_lt_log (by norm_num) (by norm_num))
    have hnd : Real.log x - Real.log 5 < Real.log 200 - Real.log 5 := by
      have := Real.log_lt_log (by linarith : (0 : ℝ) < x) hx2
      linarith
    have ht0 : 0 < (Real.log x - Real.log 5) / (Real.log 200 - Real.log 5) :=
      div_pos hnum0 hden0
    have ht1 : (Real.log x - Real.log 5) / (Real.log 200 - Real.log 5) < 1 :=
      (div_lt_one hden0).mpr hnd
    have hCA : Real.log 3 - Real.log 20 < 0 := by
      have := Real.log_lt_log (by norm_num : (0 : ℝ) < 3) (by norm_num : (3 : ℝ) < 20)
      linarith
    constructor
    · have hlt : Real.exp (Real.log 3) <
          Real.exp (Real.log 20 +
            (Real.log x - Real.log 5) / (Real.log 200 - Real.log 5) *
              (Real.log 3 - Real.log 20)) := by
        apply Real.exp_lt_exp.mpr
        have := mul_lt_mul_of_neg_right ht1 hCA
        linarith
      rw [Real.exp_log (by norm_num : (0 : ℝ) < 3)] at hlt
      rw [hval]
      exact hlt
    · have hlt : Real.exp (Real.log 20 +
          (Real.log x - Real.log 5) / (Real.log 200 - Real.log 5) *
            (Real.log 3 - Real.log 20)) < Real.exp (Real.log 20) := by
        apply Real.exp_lt_exp.mpr
        have := mul_neg_of_pos_of_neg ht0 hCA
        linarith
      rw [Real.exp_log (by norm_num : (0 : ℝ) < 20)] at hlt
      rw [hval]
      exact hlt
  have hr20 : round ((20 : ℝ)) = 20 := by
    rw [round_eq, Int.floor_eq_iff]
    constructor <;> [push_cast; push_cast] <;> linarith
  have hr3 : round ((3 : ℝ)) = 3 := by
    rw [round_eq, Int.floor_eq_iff]
    constructor <;> [push_cast; push_cast] <;> linarith
  refine ⟨part1, part2, part3, ?_⟩
  intro n
  rcases le_or_lt ((n : ℝ)) 5 with h5 | h5
  · rw [maxThreadDepthFor, part1 (5, 200) (20, 3) ((n : ℕ) : ℝ) h5]
    rw [hr20]
    exact ⟨by norm_num, le_refl _⟩
  · rcases le_or_lt (200 : ℝ) ((n : ℝ)) with h2 | h2
    · rw [maxThreadDepthFor, part2 (5, 200) (20, 3) ((n : ℕ) : ℝ) (by norm_num) h2]
      rw [hr3]
      exact ⟨le_refl _, by norm_num⟩
    · obtain ⟨hlo, hhi⟩ := part3 ((n : ℕ) : ℝ) h5 h2
      constructor
      · rw [maxThreadDepthFor, round_eq]
        apply Int.le_floor.mpr
        push_cast
        linarith
      · rw [maxThreadDepthFor, round_eq]
        have hlt : ⌊logarithmicScale (5, 200) (20, 3) ((n : ℕ) : ℝ) + 1 / 2⌋ < 21 := by
          apply Int.floor_lt.mpr
          push_cast
          linarith
        omega

/-- C9 applied at concrete inputs: the clamps at 3 and 250, the open
bounds at 50, and the rounded bound at 7 replies. -/
theorem logarithmicScale_clamps_and_bound_in_range_witness :
    logarithmicScale (5, 200) (20, 3) 3 = 20 ∧
    logarithmicScale (5, 200) (20, 3) 250 = 3 ∧
    (3 < logarithmicScale (5, 200) (20, 3) 50 ∧
      logarithmicScale (5, 200) (20, 3) 50 < 20) ∧
    (3 ≤ maxThreadDepthFor 7 ∧ maxThreadDepthFor 7 ≤ 20) :=
  ⟨logarithmicScale_clamps_and_bound_in_range.1 (5, 200) (20, 3) 3 (by norm_num),
    logarithmicScale_clamps_and_bound_in_range.2.1 (5, 200) (20, 3) 250 (by norm_num)
      (by norm_num),
    logarithmicScale_clamps_and_bound_in_range.2.2.1 50 (by norm_num) (by norm_num),
    logarithmicScale_clamps_and_bound_in_range.2.2.2 7⟩

/-- C8.  A DID whose resolution fails with `ImproperContentTypeError` does
cache `null`, but the guard `if (fromCache) return fromCache` is a JS
truthiness test, so the cached `null` never short-circuits: a second call
for the same DID resolves over the network again (`resolveCalls` reaches
2), refuting "the cached negative entry suppresses re-resolution". -/
theorem getServiceForDid_cached_null_does_not_suppress_resolution :
    (getServiceForDid c8Resolve {} ("did:web:gone")).2 =
      { cache := [("did:web:gone", none)], resolveCalls := 1 } ∧
    (getServiceForDid c8Resolve
        { cache := [("did:web:gone", none)], resolveCalls := 1 }
        ("did:web:gone")).2.resolveCalls = 2 := by
  decide

end Pinakes
